import Mathlib

/-
Verification of the declaration type-checker and indexed package importer.

The definitions below are shallow embeddings of the Go source:
  * src/go/types/decl.go           (Checker.objDecl, Checker.cycle, walkDecl)
  * src/go/internal/gcimporter/iimport.go
                                   (iImportData, doDecl, typAt, obj,
                                    intSize, mpint, mpfloat, parseSubscript)
Machine integers are modelled as Nat/Int with explicit wrapping where the
source relies on fixed-width arithmetic; fallible reads return Option.
-/

namespace Wend

/-! ## Checker cycle machinery (decl.go, Checker.cycle / objDecl grey branch)

Objects are modelled by the data the cycle classifier inspects.  A
`typeName` carries the information used to decide aliashood: for a
package-level object the checker consults `check.objMap[obj]` and uses
`d.tdecl.Assign.IsValid()` (modelled as `objMapAssign = some b`); for a
function-local object (`objMapAssign = none`) it uses `obj.IsAlias()`
(modelled as the `isAliasFlag` field). -/

inductive CObject where
  | const
  | var
  | typeName (objMapAssign : Option Bool) (isAliasFlag : Bool)
  | func
deriving DecidableEq

/-- Error codes relevant to the modelled fragment of the checker. -/
inductive ErrCode where
  | invalidDeclCycle
deriving DecidableEq

/-- Objects counted by `nval` in Checker.cycle: constants and variables. -/
def isValueObj : CObject → Bool
  | .const => true
  | .var => true
  | _ => false

/-- Objects counted by `ndef` in Checker.cycle: type names that are not
aliases, with aliashood read from the object map's AST assign token for
package-level objects and from the object's IsAlias predicate otherwise. -/
def isTypeDefn : CObject → Bool
  | .typeName (some assignValid) _ => !assignValid
  | .typeName none isAliasFlag => !isAliasFlag
  | _ => false

/-- The counting loop in Checker.cycle: one pass over the cycle slice
accumulating `nval` (consts and vars) and `ndef` (non-alias type names). -/
def cycleCounts : List CObject → Nat × Nat
  | [] => (0, 0)
  | o :: rest =>
    let counts := cycleCounts rest
    match o with
    | .const => (counts.1 + 1, counts.2)
    | .var => (counts.1 + 1, counts.2)
    | .typeName objMapAssign isAliasFlag =>
      let isAl := match objMapAssign with
        | some assignValid => assignValid
        | none => isAliasFlag
      if isAl then counts else (counts.1, counts.2 + 1)
    | .func => counts

/-- Checker.cycleError: emits one _InvalidDeclCycle error, then one
"refers to" error per cycle member, then a final closing error —
`cycle.length + 2` errors in total, all coded _InvalidDeclCycle. -/
def cycleErrorReports (cycle : List CObject) : List ErrCode :=
  List.replicate (cycle.length + 2) ErrCode.invalidDeclCycle

/-- Checker.cycle applied to the cycle slice `objPath[start:]`: returns
(isCycle result, errors reported).  Mirrors the three-way classification
at the end of the function. -/
def checkerCycle (cycle : List CObject) : Bool × List ErrCode :=
  let counts := cycleCounts cycle
  if counts.1 = cycle.length then (false, [])
  else if counts.1 = 0 ∧ 0 < counts.2 then (false, [])
  else (true, cycleErrorReports cycle)

lemma cycleCounts_eq_countP (l : List CObject) :
    cycleCounts l = (l.countP isValueObj, l.countP isTypeDefn) := by
  induction l with
  | nil => rfl
  | cons o rest ih =>
    cases o with
    | const => simp [cycleCounts, ih, List.countP_cons, isValueObj, isTypeDefn]
    | var => simp [cycleCounts, ih, List.countP_cons, isValueObj, isTypeDefn]
    | typeName objMapAssign isAliasFlag =>
      cases objMapAssign with
      | none =>
        cases isAliasFlag <;>
          simp [cycleCounts, ih, List.countP_cons, isValueObj, isTypeDefn]
      | some assignValid =>
        cases assignValid <;>
          simp [cycleCounts, ih, List.countP_cons, isValueObj, isTypeDefn]
    | func => simp [cycleCounts, ih, List.countP_cons, isValueObj, isTypeDefn]

/-- C1: on grey re-entry with cycle = objPath[i:], Checker.cycle returns
false and reports nothing when every cycle member is a const or var
(nval = len), returns false and reports nothing when the cycle has no
values and at least one non-alias type definition (ndef counted via the
AST assign token for package-level type names, via IsAlias for local
ones), and in every other case reports InvalidDeclCycle errors and
returns true. -/
theorem c1_cycle_classification (objPath : List CObject) (i : Nat) :
    checkerCycle (objPath.drop i) =
      if (objPath.drop i).countP isValueObj = (objPath.drop i).length then
        (false, [])
      else if (objPath.drop i).countP isValueObj = 0 ∧
              0 < (objPath.drop i).countP isTypeDefn then
        (false, [])
      else
        (true, List.replicate ((objPath.drop i).length + 2)
                 ErrCode.invalidDeclCycle) := by
  simp only [checkerCycle, cycleCounts_eq_countP, cycleErrorReports]

/-! ## objDecl grey branch (decl.go, Checker.objDecl) -/

/-- A checker-side type; `invalid` is the sentinel Typ[Invalid]. -/
inductive TcType where
  | invalid
  | ty (n : Nat)
deriving DecidableEq

/-- The grey (cycle) branch of Checker.objDecl: the switch on the object's
dynamic type.  For Const and Var the type is set to Typ[Invalid] when the
cycle is reported as invalid or the type is still nil; for TypeName only
when the cycle is invalid; a Func's type is left alone.  `start` is the
path index encoded in the object's grey colour. -/
def greyReentry (obj : CObject) (typ : Option TcType)
    (objPath : List CObject) (start : Nat) : Option TcType :=
  let isCycle := (checkerCycle (objPath.drop start)).1
  match obj with
  | .const => if isCycle ∨ typ = none then some .invalid else typ
  | .var => if isCycle ∨ typ = none then some .invalid else typ
  | .typeName _ _ => if isCycle then some .invalid else typ
  | .func => typ

/-- C9: when objDecl re-enters a grey Const or Var, a nil type is replaced
by the Invalid sentinel even when the cycle check classifies the cycle as
all-values and returns false; the grey branch never leaves a Const or Var
with a nil type. -/
theorem c9_grey_const_var_invalid (obj : CObject) (typ : Option TcType)
    (objPath : List CObject) (start : Nat)
    (h : obj = CObject.const ∨ obj = CObject.var) :
    greyReentry obj typ objPath start ≠ none ∧
    (typ = none → greyReentry obj typ objPath start = some TcType.invalid) := by
  rcases h with h | h <;> subst h <;>
    refine ⟨?_, ?_⟩ <;>
    simp only [greyReentry] <;>
    cases typ <;>
    by_cases hc : (checkerCycle (objPath.drop start)).1 = true <;>
    simp [hc]

/-- C9 witness: a two-element all-value cycle, for which Checker.cycle
returns false, still forces the re-entered nil-typed Const to Invalid. -/
theorem c9_grey_const_var_invalid_witness :
    greyReentry CObject.const none [CObject.const, CObject.const] 0 ≠ none ∧
    (greyReentry CObject.const none [CObject.const, CObject.const] 0 =
      some TcType.invalid) ∧
    (checkerCycle [CObject.const, CObject.const]).1 = false := by
  have h := c9_grey_const_var_invalid CObject.const none
    [CObject.const, CObject.const] 0 (Or.inl rfl)
  exact ⟨h.1, h.2 rfl, by decide⟩

/-! ## Importer type declarations (iimport.go, importReader.obj, tags T/U)

Types are modelled with the structure the claim inspects: basics,
pointers, interfaces and named types.  `underlyingT` models
types.Type.Underlying(): the identity on non-named types and the stored
underlying for a Named (go/types maintains that this stored underlying is
itself never a Named — SetUnderlying panics otherwise; `wfUnder` states
that invariant). -/

inductive GoType where
  | basic (k : Nat)
  | pointer (elem : GoType)
  | iface (nmeth : Nat)
  | named (und : GoType)
deriving DecidableEq

def GoType.isNamedT : GoType → Bool
  | .named _ => true
  | _ => false

/-- isInterface from iimport.go: a type assertion to *types.Interface. -/
def GoType.isInterfaceT : GoType → Bool
  | .iface _ => true
  | _ => false

/-- types.Type.Underlying(): identity except on Named, which yields its
stored underlying type. -/
def GoType.underlyingT : GoType → GoType
  | .named u => u
  | t => t

/-- The go/types invariant enforced by Named.SetUnderlying: the stored
underlying of a Named is never itself a Named. -/
def GoType.wfUnder : GoType → Bool
  | .basic _ => true
  | .pointer e => e.wfUnder
  | .iface _ => true
  | .named u => !u.isNamedT && u.wfUnder

/-- Reader events for the T/U branch of importReader.obj, in source
order: the stub TypeName/Named pair is declared, then the underlying is
read, then (possibly) the methods. -/
inductive ImportEvent where
  | declareStub
  | readUnderlying
  | readMethod (m : Nat)
deriving DecidableEq

structure TypeDeclResult where
  underlying : GoType
  methods : List Nat
  events : List ImportEvent
deriving DecidableEq

/-- The T/U branch of importReader.obj: declare a stub TypeName and Named,
read the underlying type and store `underlying.Underlying()` on the Named,
then read and attach the pending methods only when that underlying is not
an interface. -/
def importTypeDecl (decoded : GoType) (pendingMethods : List Nat) :
    TypeDeclResult :=
  let u := decoded.underlyingT
  { underlying := u
    methods := if u.isInterfaceT then [] else pendingMethods
    events := [ImportEvent.declareStub, ImportEvent.readUnderlying] ++
      (if u.isInterfaceT then []
       else pendingMethods.map ImportEvent.readMethod) }

/-- C2: importing a type declaration declares the stub before any body
read, stores an underlying that is never itself a Named, and attaches
methods exactly when the underlying is not an interface. -/
theorem c2_type_decl_underlying (decoded : GoType) (pendingMethods : List Nat)
    (hwf : decoded.wfUnder = true) :
    (importTypeDecl decoded pendingMethods).underlying.isNamedT = false ∧
    ((importTypeDecl decoded pendingMethods).underlying.isInterfaceT = true →
      (importTypeDecl decoded pendingMethods).methods = []) ∧
    ((importTypeDecl decoded pendingMethods).underlying.isInterfaceT = false →
      (importTypeDecl decoded pendingMethods).methods = pendingMethods) ∧
    (importTypeDecl decoded pendingMethods).events.head? =
      some ImportEvent.declareStub := by
  refine ⟨?_, ?_, ?_, rfl⟩
  · cases decoded with
    | named u =>
      simp only [GoType.wfUnder, Bool.and_eq_true, Bool.not_eq_true'] at hwf
      simpa [importTypeDecl, GoType.underlyingT] using hwf.1
    | basic k => rfl
    | pointer e => rfl
    | iface n => rfl
  · intro hi
    simp only [importTypeDecl] at hi ⊢
    simp [hi]
  · intro hi
    simp only [importTypeDecl] at hi ⊢
    simp [hi]

/-- C2 witness: a named type whose decoded underlying is another named
type wrapping a basic; the stored underlying is the basic, methods are
attached, and the stub declaration is the first event. -/
theorem c2_type_decl_underlying_witness :
    (importTypeDecl (GoType.named (GoType.basic 0)) [1, 2]).underlying =
      GoType.basic 0 ∧
    (importTypeDecl (GoType.named (GoType.basic 0)) [1, 2]).methods = [1, 2] ∧
    (importTypeDecl (GoType.named (GoType.basic 0)) [1, 2]).underlying.isNamedT
      = false := by
  have h := c2_type_decl_underlying (GoType.named (GoType.basic 0)) [1, 2]
    (by decide)
  exact ⟨by decide, h.2.2.1 (by decide), h.1⟩

/-! ## Importer type cache (iimport.go, iimporter.typAt)

Type references are modelled by an allocation id plus the one shape bit
typAt inspects (interface or not).  `decodeIsIface off` abstracts what the
declaration pool holds at `off`: whether `doType` at that offset produces
an interface.  Each run of `doType` allocates a fresh reference
(`nextId`). -/

structure TypeRef where
  id : Nat
  isIfaceRef : Bool
deriving DecidableEq

structure TypCacheSt where
  typCache : List (Nat × TypeRef)
  nextId : Nat
deriving DecidableEq

def lookupCache : List (Nat × TypeRef) → Nat → Option TypeRef
  | [], _ => none
  | (o, t) :: rest, off => if o = off then some t else lookupCache rest off

/-- predeclReserved from iimport.go: offsets below 32 index predeclared
types and must already be in the cache. -/
def predeclReserved : Nat := 32

/-- iimporter.typAt: serve from typCache unless the request carries a
non-null base and the cached type is an interface; otherwise an offset
below predeclReserved is the fatal "predeclared type missing from cache"
error (modelled as none); else decode a fresh type and cache it unless
the request carried a non-null base and the decoded type is an
interface. -/
def typAt (decodeIsIface : Nat → Bool) (st : TypCacheSt) (off : Nat)
    (baseNonNull : Bool) : Option (TypeRef × TypCacheSt) :=
  let cached := lookupCache st.typCache off
  let hitServed := match cached with
    | some t => !baseNonNull || !t.isIfaceRef
    | none => false
  match cached, hitServed with
  | some t, true => some (t, st)
  | _, _ =>
    if off < predeclReserved then none
    else
      let t : TypeRef := ⟨st.nextId, decodeIsIface off⟩
      if !baseNonNull || !t.isIfaceRef then
        some (t, ⟨(off, t) :: st.typCache, st.nextId + 1⟩)
      else
        some (t, ⟨st.typCache, st.nextId + 1⟩)

lemma typAt_miss_store (decodeIsIface : Nat → Bool) (st : TypCacheSt)
    (off : Nat) (b : Bool) (hoff : predeclReserved ≤ off)
    (hnone : lookupCache st.typCache off = none)
    (hb : b = false ∨ decodeIsIface off = false) :
    typAt decodeIsIface st off b =
      some (⟨st.nextId, decodeIsIface off⟩,
        ⟨(off, ⟨st.nextId, decodeIsIface off⟩) :: st.typCache,
          st.nextId + 1⟩) := by
  have hguard : ¬off < predeclReserved := not_lt.mpr hoff
  rcases hb with hb | hb
  · subst hb
    simp [typAt, hnone, hguard]
  · cases b <;> simp [typAt, hnone, hguard, hb]

/-- C3: for declaration-pool offsets (at or above predeclReserved) the
type cache is stable — two decodes at the same offset return the
identical reference — except that an interface requested or decoded with
a non-null base is neither served from nor stored into the cache, while
every other decoded type is cached unconditionally. -/
theorem c3_typAt_cache_stable (decodeIsIface : Nat → Bool) (off : Nat)
    (hoff : predeclReserved ≤ off) :
    (∀ (st : TypCacheSt) (b1 b2 : Bool) (t1 : TypeRef) (st1 : TypCacheSt),
      lookupCache st.typCache off = none →
      (decodeIsIface off = false ∨ (b1 = false ∧ b2 = false)) →
      typAt decodeIsIface st off b1 = some (t1, st1) →
      (typAt decodeIsIface st1 off b2).map Prod.fst = some t1) ∧
    (∀ (st : TypCacheSt) (t1 : TypeRef) (st1 : TypCacheSt),
      decodeIsIface off = true →
      typAt decodeIsIface st off true = some (t1, st1) →
      st1.typCache = st.typCache) ∧
    (∀ (st : TypCacheSt) (t : TypeRef),
      lookupCache st.typCache off = some t →
      t.isIfaceRef = true →
      (typAt decodeIsIface st off true).map Prod.fst =
        some ⟨st.nextId, decodeIsIface off⟩) ∧
    (∀ (st : TypCacheSt) (b : Bool),
      lookupCache st.typCache off = none →
      (b = false ∨ decodeIsIface off = false) →
      typAt decodeIsIface st off b =
        some (⟨st.nextId, decodeIsIface off⟩,
          ⟨(off, ⟨st.nextId, decodeIsIface off⟩) :: st.typCache,
            st.nextId + 1⟩)) := by
  have hguard : ¬off < predeclReserved := not_lt.mpr hoff
  refine ⟨?_, ?_, ?_, ?_⟩
  · intro st b1 b2 t1 st1 hnone hcond hfirst
    have hstore : b1 = false ∨ decodeIsIface off = false := by tauto
    rw [typAt_miss_store decodeIsIface st off b1 hoff hnone hstore,
      Option.some.injEq, Prod.mk.injEq] at hfirst
    obtain ⟨ht, hst⟩ := hfirst
    subst ht
    subst hst
    rcases hcond with hd | ⟨hb1, hb2⟩
    · rw [hd]
      have hlook1 : lookupCache
          ((off, ⟨st.nextId, false⟩) :: st.typCache) off =
          some ⟨st.nextId, false⟩ := by
        simp [lookupCache]
      simp [typAt, hd, hlook1]
    · subst hb2
      have hlook1 : lookupCache
          ((off, ⟨st.nextId, decodeIsIface off⟩) :: st.typCache) off =
          some ⟨st.nextId, decodeIsIface off⟩ := by
        simp [lookupCache]
      simp [typAt, hlook1]
  · intro st t1 st1 hd hcall
    cases hcase : lookupCache st.typCache off with
    | some t =>
      cases hti : t.isIfaceRef with
      | false =>
        simp [typAt, hcase, hti] at hcall
        obtain ⟨h1, h2⟩ := hcall
        subst h2
        rfl
      | true =>
        simp [typAt, hcase, hti, hd, hguard] at hcall
        obtain ⟨h1, h2⟩ := hcall
        subst h2
        rfl
    | none =>
      simp [typAt, hcase, hd, hguard] at hcall
      obtain ⟨h1, h2⟩ := hcall
      subst h2
      rfl
  · intro st t hsome hti
    simp only [typAt, hsome, hti, Bool.not_true, Bool.or_self,
      if_neg hguard]
    split <;> rfl
  · intro st b hnone hcond
    exact typAt_miss_store decodeIsIface st off b hoff hnone hcond

/-- C3 witness: at a fresh declaration-pool offset holding a
non-interface type, a decode with base non-null stores the type and a
second decode with base null serves the identical cached reference; a
cached interface requested with base non-null is decoded afresh. -/
theorem c3_typAt_cache_stable_witness :
    typAt (fun _ => false) ⟨[], 0⟩ 32 true =
      some (⟨0, false⟩, ⟨[(32, ⟨0, false⟩)], 1⟩) ∧
    (typAt (fun _ => false) ⟨[(32, ⟨0, false⟩)], 1⟩ 32 false).map Prod.fst =
      some ⟨0, false⟩ ∧
    (typAt (fun _ => true) ⟨[(40, ⟨5, true⟩)], 6⟩ 40 true).map Prod.fst =
      some ⟨6, true⟩ := by
  have hc := c3_typAt_cache_stable (fun _ => false) 32 (by decide)
  have hc2 := c3_typAt_cache_stable (fun _ => true) 40 (by decide)
  refine ⟨?_, ?_, ?_⟩
  · exact hc.2.2.2 ⟨[], 0⟩ true (by decide) (Or.inr rfl)
  · exact hc.1 ⟨[], 0⟩ true false ⟨0, false⟩ ⟨[(32, ⟨0, false⟩)], 1⟩
      (by decide) (Or.inl rfl)
      (hc.2.2.2 ⟨[], 0⟩ true (by decide) (Or.inr rfl))
  · exact hc2.2.2.1 ⟨[(40, ⟨5, true⟩)], 6⟩ ⟨5, true⟩ (by decide) rfl

/-! ## Constant value decoding (iimport.go, intSize / mpint / mpfloat)

Basic kinds with the info bits intSize consults (IsUntyped, IsUnsigned).
Byte streams are lists of naturals below 256; readers return the decoded
value and the unconsumed rest, or none on a malformed stream. -/

inductive BasicKind where
  | bool
  | int
  | int8
  | int16
  | int32
  | int64
  | uint
  | uint8
  | uint16
  | uint32
  | uint64
  | uintptr
  | float32
  | float64
  | complex64
  | complex128
  | string
  | untypedBool
  | untypedInt
  | untypedRune
  | untypedFloat
  | untypedComplex
  | untypedString
deriving DecidableEq

def BasicKind.isUntypedB : BasicKind → Bool
  | .untypedBool => true
  | .untypedInt => true
  | .untypedRune => true
  | .untypedFloat => true
  | .untypedComplex => true
  | .untypedString => true
  | _ => false

def BasicKind.isUnsignedB : BasicKind → Bool
  | .uint => true
  | .uint8 => true
  | .uint16 => true
  | .uint32 => true
  | .uint64 => true
  | .uintptr => true
  | _ => false

/-- intSize from iimport.go: untyped types are signed with 64 max bytes;
typed floats/complexes use an effective width of 3 or 7; integer kinds use
their byte width with 8 as the default, signed unless the kind carries the
IsUnsigned info bit. -/
def intSize (b : BasicKind) : Bool × Nat :=
  if b.isUntypedB then (true, 64)
  else
    match b with
    | .float32 => (true, 3)
    | .complex64 => (true, 3)
    | .float64 => (true, 7)
    | .complex128 => (true, 7)
    | _ =>
      let signed := !b.isUnsignedB
      let maxBytes : Nat :=
        match b with
        | .int8 => 1
        | .uint8 => 1
        | .int16 => 2
        | .uint16 => 2
        | .int32 => 4
        | .uint32 => 4
        | _ => 8
      (signed, maxBytes)

/-- The maxSmall computation at the top of mpint: 256 − maxBytes,
overridden to 256 − 2·maxBytes when signed and to 256 when maxBytes is
one. -/
def maxSmallOf (signed : Bool) (maxBytes : Nat) : Nat :=
  if maxBytes = 1 then 256
  else if signed then 256 - 2 * maxBytes
  else 256 - maxBytes

/-- The signed small-value decoding in mpint: v := n; v >>= 1; if the low
bit of n is set, v = ^v (bitwise complement, i.e. −v−1). -/
def zigzagDecode (n : Nat) : Int :=
  if n % 2 = 1 then -(Int.ofNat (n / 2)) - 1 else Int.ofNat (n / 2)

/-- importReader.mpint: read one byte n; below maxSmall the value is n
itself (zigzag-decoded when signed); otherwise n encodes (in one's or
two's-complement byte arithmetic) the length of a big-endian magnitude
that follows, negated when signed and the low bit of n is set. -/
def mpint (typ : BasicKind) (bytes : List Nat) : Option (Int × List Nat) :=
  match bytes with
  | [] => none
  | n :: rest =>
    let signed := (intSize typ).1
    let maxBytes := (intSize typ).2
    if n < maxSmallOf signed maxBytes then
      some (if signed then zigzagDecode n else Int.ofNat n, rest)
    else
      let v := if signed then ((256 - (n - n % 2)) % 256) / 2
               else (256 - n) % 256
      if v < 1 ∨ maxBytes < v then none
      else if rest.length < v then none
      else
        let mag := (rest.take v).foldl (fun acc b => acc * 256 + b) 0
        some (if signed && n % 2 = 1 then -(Int.ofNat mag) else Int.ofNat mag,
          rest.drop v)

/-- binary.ReadUvarint: little-endian base-128 groups, continuation bit
0x80, overflowing a 64-bit accumulator is an error. -/
def readUvarintAux : List Nat → Nat → Nat → Option (Nat × List Nat)
  | [], _, _ => none
  | b :: rest, shift, acc =>
    if 63 < shift then none
    else if b < 128 then some (acc + b * 2 ^ shift, rest)
    else readUvarintAux rest (shift + 7) (acc + (b - 128) * 2 ^ shift)

def readUvarint (bytes : List Nat) : Option (Nat × List Nat) :=
  readUvarintAux bytes 0 0

/-- binary.ReadVarint: a uvarint ux, zigzag-decoded to a signed value. -/
def readVarint (bytes : List Nat) : Option (Int × List Nat) :=
  match readUvarint bytes with
  | none => none
  | some (ux, rest) =>
    some (if ux % 2 = 1 then -(Int.ofNat (ux / 2)) - 1 else Int.ofNat (ux / 2),
      rest)

/-- importReader.mpfloat: read an mpint mantissa; when it is nonzero read
a varint exponent and scale by 2^exponent (big.Float SetMantExp); a zero
mantissa yields zero with no exponent read. -/
def mpfloat (typ : BasicKind) (bytes : List Nat) : Option (ℚ × List Nat) :=
  match mpint typ bytes with
  | none => none
  | some (m, rest) =>
    if m = 0 then some ((m : ℚ), rest)
    else
      match readVarint rest with
      | none => none
      | some (e, rest2) => some ((m : ℚ) * 2 ^ e, rest2)

/-! ## C4: intSize / mpint small path -/

/-- Claim-side signed small value, following the claim's words: the
zigzag value v = n >> 1, negated if the low bit of n is set. -/
def claimSmallValueSigned (n : Nat) : Int :=
  if n % 2 = 1 then -(Int.ofNat (n / 2)) else Int.ofNat (n / 2)

/-- C4 counterexample: intSize gives untyped constants 64 max bytes, not
the 8 the claim states, and the signed small path at byte 1 yields the
bitwise complement −1, not the claim's negated shift 0. -/
theorem c4_counterexample :
    (intSize BasicKind.untypedInt).2 = 64 ∧
    ¬(intSize BasicKind.untypedInt).2 = 8 ∧
    mpint BasicKind.int [1] = some (-1, []) ∧
    ¬mpint BasicKind.int [1] = some (claimSmallValueSigned 1, []) := by
  decide

/-- Amended-claim signedness: every kind except the unsigned integer
kinds is decoded as signed. -/
def amendedSigned (b : BasicKind) : Bool :=
  !b.isUnsignedB

/-- Amended-claim byte width: 64 for untyped, 1 for int8/uint8, 2 for
int16/uint16, 4 for int32/uint32, 3 for float32/complex64, 7 for
float64/complex128, 8 for the remaining (default-width) kinds. -/
def amendedMaxBytes (b : BasicKind) : Nat :=
  if b.isUntypedB then 64
  else
    match b with
    | .int8 => 1
    | .uint8 => 1
    | .int16 => 2
    | .uint16 => 2
    | .int32 => 4
    | .uint32 => 4
    | .float32 => 3
    | .complex64 => 3
    | .float64 => 7
    | .complex128 => 7
    | _ => 8

/-- Amended-claim maxSmall: 256 − maxBytes, or 256 − 2·maxBytes if
signed, or 256 if maxBytes is one. -/
def amendedMaxSmall (b : BasicKind) : Nat :=
  if amendedMaxBytes b = 1 then 256
  else if amendedSigned b then 256 - 2 * amendedMaxBytes b
  else 256 - amendedMaxBytes b

/-- Amended-claim small value: n for unsigned kinds; for signed kinds
v = n >> 1, bitwise-complemented (−v−1) when the low bit of n is set. -/
def amendedSmallValue (b : BasicKind) (n : Nat) : Int :=
  if amendedSigned b then
    (if n % 2 = 1 then -(Int.ofNat (n / 2)) - 1 else Int.ofNat (n / 2))
  else Int.ofNat n

lemma mpint_small_eq (typ : BasicKind) (n : Nat) (rest : List Nat)
    (h : n < maxSmallOf (intSize typ).1 (intSize typ).2) :
    mpint typ (n :: rest) =
      some (if (intSize typ).1 then zigzagDecode n else Int.ofNat n, rest) := by
  simp [mpint, h]

/-- C4 (amended): intSize assigns the byte widths 64/1/2/4/3/7/8 as in the
source (64, not 8, for untyped), maxSmall is 256 − maxBytes
(256 − 2·maxBytes signed, 256 when maxBytes is one), and a first byte
below maxSmall decodes to n for unsigned kinds, or for signed kinds to
n >> 1 bitwise-complemented when the low bit of n is set. -/
theorem c4_amended_intSize_mpint_small :
    (∀ b : BasicKind, intSize b = (amendedSigned b, amendedMaxBytes b)) ∧
    (∀ (b : BasicKind) (n : Nat) (rest : List Nat), n < amendedMaxSmall b →
      mpint b (n :: rest) = some (amendedSmallValue b n, rest)) := by
  refine ⟨fun b => by cases b <;> rfl, ?_⟩
  intro b n rest h
  have hms : maxSmallOf (intSize b).1 (intSize b).2 = amendedMaxSmall b := by
    cases b <;> rfl
  rw [mpint_small_eq b n rest (by rw [hms]; exact h)]
  congr 1
  cases b <;>
    simp [amendedSmallValue, amendedSigned, zigzagDecode, intSize,
      BasicKind.isUntypedB, BasicKind.isUnsignedB]

/-- C4 witness: decoding byte 3 for a default-width signed int takes the
small path and yields −2. -/
theorem c4_amended_witness :
    mpint BasicKind.int [3] = some (amendedSmallValue BasicKind.int 3, []) ∧
    amendedSmallValue BasicKind.int 3 = -2 :=
  ⟨c4_amended_intSize_mpint_small.2 BasicKind.int 3 [] (by decide), by decide⟩

/-! ## C5: mpfloat -/

/-- Claim-side mpfloat, following the claim's words: always read an mpint
mantissa and then a varint exponent, and yield mantissa × 2^exponent. -/
def mpfloatClaim (typ : BasicKind) (bytes : List Nat) :
    Option (ℚ × List Nat) :=
  match mpint typ bytes with
  | none => none
  | some (m, rest) =>
    match readVarint rest with
    | none => none
    | some (e, rest2) => some ((m : ℚ) * 2 ^ e, rest2)

/-- C5 counterexample: on a zero mantissa mpfloat does not read an
exponent, so the stream [0, 2] leaves the byte 2 unconsumed, while the
claim's reading consumes it. -/
theorem c5_counterexample :
    mpfloat BasicKind.float64 [0, 2] = some (0, [2]) ∧
    mpfloatClaim BasicKind.float64 [0, 2] = some (0, []) ∧
    ¬mpfloat BasicKind.float64 [0, 2] =
      mpfloatClaim BasicKind.float64 [0, 2] := by
  have h1 : mpint BasicKind.float64 [0, 2] = some (0, [2]) := by decide
  have h2 : readVarint [2] = some (1, []) := by decide
  have hm : mpfloat BasicKind.float64 [0, 2] = some (0, [2]) := by
    simp [mpfloat, h1]
  have hc : mpfloatClaim BasicKind.float64 [0, 2] = some (0, []) := by
    simp [mpfloatClaim, h1, h2]
  refine ⟨hm, hc, ?_⟩
  rw [hm, hc]
  simp

/-- C5 (amended): mpfloat reads an mpint mantissa; when the mantissa is
nonzero it reads a varint exponent and yields mantissa × 2^exponent; a
zero mantissa yields 0 with no exponent read. -/
theorem c5_amended_mpfloat (b : BasicKind) (bytes rest : List Nat) (m : Int)
    (h : mpint b bytes = some (m, rest)) :
    (m = 0 → mpfloat b bytes = some (0, rest)) ∧
    (m ≠ 0 → ∀ (e : Int) (rest2 : List Nat),
      readVarint rest = some (e, rest2) →
      mpfloat b bytes = some ((m : ℚ) * 2 ^ e, rest2)) := by
  constructor
  · intro hm
    subst hm
    simp [mpfloat, h]
  · intro hm e rest2 hv
    simp [mpfloat, h, hm, hv]

/-- C5 witness: mantissa byte 2 (value 1) and exponent byte 2 (value 1)
decode to the float 2. -/
theorem c5_amended_mpfloat_witness :
    mpfloat BasicKind.float64 [2, 2] = some (2, []) := by
  have h := (c5_amended_mpfloat BasicKind.float64 [2, 2] [2] 1 (by decide)).2
    (by decide) 1 [] (by decide)
  rw [h]
  norm_num

/-! ## Export data version check (iimport.go, iImportData)

The version is read as a uvarint and stored through int64(r.uint64()),
so values at or above 2^63 wrap to negative.  The recover barrier maps
any decode fault into one of two user-facing errors keyed on whether the
already-read version exceeds the importer's current version. -/

def iexportVersionGo1_11 : Int := 0

def iexportVersionPosCol : Int := 1

def iexportVersionGenerics : Int := iexportVersionPosCol

def iexportVersionCurrent : Int := iexportVersionGenerics

/-- int64(r.uint64()): two's-complement reinterpretation of a 64-bit
unsigned value. -/
def toInt64 (u : Nat) : Int :=
  if u % 2 ^ 64 < 2 ^ 63 then ((u % 2 ^ 64 : Nat) : Int)
  else ((u % 2 ^ 64 : Nat) : Int) - 2 ^ 64

/-- The panics raised inside iImportData's version switch. -/
inductive VersionPanic where
  | unstableVersion
  | unknownVersion
deriving DecidableEq

/-- The user-facing errors produced by the recover barrier. -/
inductive ImportErr where
  | newerUpdateTool
  | versionSkew
deriving DecidableEq

/-- The version switch in iImportData: versions 1 and 0 are accepted; a
version above iexportVersionGenerics panics with the "unstable" message,
any other with the "unknown" message. -/
def versionSwitch (version : Int) : Option VersionPanic :=
  if version = iexportVersionPosCol ∨ version = iexportVersionGo1_11 then none
  else if iexportVersionGenerics < version then some .unstableVersion
  else some .unknownVersion

/-- The recover barrier: a panic raised after the version was read is
reported as "newer version - update tool" when that version exceeds the
importer's current version, and as "possibly version skew - reinstall
package" otherwise. -/
def recoverTranslate (version : Int) : ImportErr :=
  if iexportVersionCurrent < version then .newerUpdateTool else .versionSkew

/-- The version-handling prefix of iImportData on a leading uvarint u. -/
def iImportVersionCheck (u : Nat) : Except ImportErr Int :=
  let version := toInt64 u
  match versionSwitch version with
  | some _ => .error (recoverTranslate version)
  | none => .ok version

/-- C6: any leading version uvarint outside {0, 1} makes import fail, with
the "newer version - update tool" error exactly when the version read (as
int64) exceeds the importer's current version — i.e. for 2 ≤ u < 2^63 —
and the "possibly version skew - reinstall package" error for the values
that wrap to negative int64 versions. -/
theorem c6_version_errors (u : Nat) (hu : u < 2 ^ 64)
    (h0 : u ≠ 0) (h1 : u ≠ 1) :
    iImportVersionCheck u =
      .error (if u < 2 ^ 63 then ImportErr.newerUpdateTool
              else ImportErr.versionSkew) := by
  have hmod : u % 2 ^ 64 = u := Nat.mod_eq_of_lt hu
  by_cases hlt : u < 2 ^ 63
  · have hv : toInt64 u = (u : Int) := by
      unfold toInt64
      rw [hmod, if_pos hlt]
    have h2 : 2 ≤ u := by omega
    have hswitch : versionSwitch (toInt64 u) = some .unstableVersion := by
      rw [hv]
      simp only [versionSwitch, iexportVersionPosCol, iexportVersionGo1_11,
        iexportVersionGenerics]
      rw [if_neg, if_pos]
      · exact_mod_cast h2
      · rintro (h | h) <;> omega
    have htrans : recoverTranslate (toInt64 u) = .newerUpdateTool := by
      rw [hv]
      simp only [recoverTranslate, iexportVersionCurrent,
        iexportVersionGenerics, iexportVersionPosCol]
      rw [if_pos]
      exact_mod_cast h2
    simp only [iImportVersionCheck, hswitch, htrans]
    split
    · rfl
    · omega
  · have hv : toInt64 u = (u : Int) - 2 ^ 64 := by
      unfold toInt64
      rw [hmod, if_neg hlt]
    have hneg : toInt64 u < 0 := by
      rw [hv]
      have : (u : Int) < 2 ^ 64 := by exact_mod_cast hu
      omega
    have hswitch : versionSwitch (toInt64 u) = some .unknownVersion := by
      simp only [versionSwitch, iexportVersionPosCol, iexportVersionGo1_11,
        iexportVersionGenerics]
      rw [if_neg, if_neg]
      · omega
      · rintro (h | h) <;> omega
    have htrans : recoverTranslate (toInt64 u) = .versionSkew := by
      simp only [recoverTranslate, iexportVersionCurrent,
        iexportVersionGenerics, iexportVersionPosCol]
      rw [if_neg]
      omega
    simp only [iImportVersionCheck, hswitch, htrans]
    split
    · omega
    · rfl

/-- C6 witness: version 2 is the "newer version - update tool" error and
version 2^63 (negative as int64) the "possibly version skew" error. -/
theorem c6_version_errors_witness :
    iImportVersionCheck 2 = .error ImportErr.newerUpdateTool ∧
    iImportVersionCheck (2 ^ 63) = .error ImportErr.versionSkew := by
  constructor
  · have h := c6_version_errors 2 (by norm_num) (by norm_num) (by norm_num)
    simpa using h
  · have h := c6_version_errors (2 ^ 63) (by norm_num) (by positivity)
      (by norm_num)
    simpa using h

/-! ## Importer doDecl (iimport.go, iimporter.doDecl / importReader.obj)

The state tracks the package scope, the tparamIndex, a fresh-allocation
counter for newly created objects, and a count of declaration-data reads.
`table` maps a name to the tag of the declaration at its declOffset; a
missing entry is the "not in index" fatal error. -/

inductive DTag where
  | tagA
  | tagC
  | tagF
  | tagG
  | tagT
  | tagU
  | tagP
  | tagV
deriving DecidableEq

structure ImpSt where
  scope : List String
  tparamIndex : List (String × Nat)
  nextId : Nat
  reads : Nat
deriving DecidableEq

/-- iimporter.doDecl: return unchanged if the name is already in the
package scope; otherwise read the declaration.  Tags A, C, F, G, T, U
and V declare the object into the scope; tag P registers a freshly
allocated type parameter in tparamIndex without touching the scope. -/
def doDecl (table : String → Option DTag) (st : ImpSt) (name : String) :
    Option ImpSt :=
  if name ∈ st.scope then some st
  else
    match table name with
    | none => none
    | some tag =>
      match tag with
      | .tagP => some ⟨st.scope, (name, st.nextId) :: st.tparamIndex,
          st.nextId + 1, st.reads + 1⟩
      | _ => some ⟨name :: st.scope, st.tparamIndex,
          st.nextId + 1, st.reads + 1⟩

/-- A declaration table holding a single type-parameter record. -/
def c7table : String → Option DTag :=
  fun name => if name = "T" then some DTag.tagP else none

/-- C7 counterexample: a 'P' declaration never enters the package scope,
so a second doDecl for the same name re-reads the declaration and
allocates a fresh type parameter — not a no-op. -/
theorem c7_counterexample :
    doDecl c7table ⟨[], [], 0, 0⟩ "T" = some ⟨[], [("T", 0)], 1, 1⟩ ∧
    ¬doDecl c7table ⟨[], [("T", 0)], 1, 1⟩ "T" =
      some ⟨[], [("T", 0)], 1, 1⟩ := by
  constructor
  · decide
  · decide

/-- C7 (amended): when the name is already in the package scope doDecl
returns at once without reading declaration data or mutating any state,
and a second call after a successful first call is a no-op for every tag
that declares into the scope (A, C, F, G, T, U, V); a 'P' record is
registered in tparamIndex, not the scope, so repeating it is not a
no-op. -/
theorem c7_amended_doDecl_idempotent (table : String → Option DTag)
    (st : ImpSt) (name : String) :
    (name ∈ st.scope → doDecl table st name = some st) ∧
    (∀ (tag : DTag) (st1 : ImpSt), table name = some tag → tag ≠ DTag.tagP →
      doDecl table st name = some st1 → doDecl table st1 name = some st1) := by
  constructor
  · intro hmem
    simp [doDecl, hmem]
  · intro tag st1 htag htagP hfirst
    by_cases hmem : name ∈ st.scope
    · rw [doDecl, if_pos hmem] at hfirst
      rw [doDecl]
      cases hfirst
      rw [if_pos hmem]
    · rw [doDecl, if_neg hmem, htag] at hfirst
      have hmem1 : name ∈ st1.scope := by
        cases tag <;> simp_all <;> simp [← hfirst]
      simp [doDecl, hmem1]

/-- C7 witness: a 'V' (variable) declaration is declared into the scope,
after which a repeated doDecl is a no-op. -/
theorem c7_amended_doDecl_idempotent_witness :
    doDecl (fun _ => some DTag.tagV) ⟨["x"], [], 3, 1⟩ "x" =
      some ⟨["x"], [], 3, 1⟩ ∧
    doDecl (fun _ => some DTag.tagV) ⟨["x"], [], 3, 1⟩ "x" =
      some ⟨["x"], [], 3, 1⟩ := by
  have h := (c7_amended_doDecl_idempotent (fun _ => some DTag.tagV)
    ⟨[], [], 2, 0⟩ "x").2 DTag.tagV ⟨["x"], [], 3, 1⟩ rfl (by decide)
    (by decide)
  exact ⟨h, h⟩

/-! ## Declaration walker const blocks (decl.go, Checker.walkDecl)

A ValueSpec is modelled by the two pieces the const case inspects: an
optional type expression and the list of init expressions (expressions
are opaque Nat ids).  `walkConstAux` is the loop body for token.CONST:
`last` is the most recent spec seen with a type or values (created fresh
and empty when the first spec has neither), and `i` the running spec
index used as iota. -/

structure VSpec where
  typ : Option Nat
  values : List Nat
deriving DecidableEq

structure ConstRec where
  iota : Nat
  typ : Option Nat
  initExprs : List Nat
  inherited : Bool
deriving DecidableEq

/-- The condition `s.Type != nil || len(s.Values) > 0`. -/
def nonEmptySpec (s : VSpec) : Bool :=
  s.typ.isSome || !s.values.isEmpty

/-- The const arm of walkDecl's loop over a GenDecl's specs.  The Go
switch first tests `s.Type != nil || len(s.Values) > 0` (the spec becomes
the new inheritance source, not inherited), then `last == nil` (a fresh
empty spec is substituted, not inherited), and otherwise inherits type
and values from `last`; the definition is split on `last` so both states
of that Go variable appear as explicit patterns. -/
def walkConstAux : Option VSpec → Nat → List VSpec → List ConstRec
  | _, _, [] => []
  | none, i, s :: rest =>
    if nonEmptySpec s then
      ⟨i, s.typ, s.values, false⟩ :: walkConstAux (some s) (i + 1) rest
    else
      ⟨i, (VSpec.mk none []).typ, (VSpec.mk none []).values, false⟩ ::
        walkConstAux (some (VSpec.mk none [])) (i + 1) rest
  | some l, i, s :: rest =>
    if nonEmptySpec s then
      ⟨i, s.typ, s.values, false⟩ :: walkConstAux (some s) (i + 1) rest
    else
      ⟨i, l.typ, l.values, true⟩ :: walkConstAux (some l) (i + 1) rest

/-- walkDecl on a const GenDecl block. -/
def walkConstBlock (specs : List VSpec) : List ConstRec :=
  walkConstAux none 0 specs

/-- The nearest preceding spec with a type or values: the last element of
the prefix that satisfies nonEmptySpec. -/
def lastWithInit : List VSpec → Option VSpec
  | [] => none
  | s :: rest =>
    match lastWithInit rest with
    | some r => some r
    | none => if nonEmptySpec s then some s else none

def lastNonEmptyBefore (specs : List VSpec) (j : Nat) : Option VSpec :=
  lastWithInit (specs.take j)

lemma lastWithInit_cons (s : VSpec) (rest : List VSpec) :
    lastWithInit (s :: rest) =
      match lastWithInit rest with
      | some r => some r
      | none => if nonEmptySpec s then some s else none := rfl

lemma walkConstAux_length (specs : List VSpec) :
    ∀ (last : Option VSpec) (i : Nat),
      (walkConstAux last i specs).length = specs.length := by
  induction specs with
  | nil => intro last i; cases last <;> rfl
  | cons s rest ih =>
    intro last i
    cases last with
    | none => by_cases hs : nonEmptySpec s <;> simp [walkConstAux, hs, ih]
    | some l => by_cases hs : nonEmptySpec s <;> simp [walkConstAux, hs, ih]

lemma walkConstAux_iota (specs : List VSpec) :
    ∀ (last : Option VSpec) (i j : Nat) (rec : ConstRec),
      (walkConstAux last i specs)[j]? = some rec → rec.iota = i + j := by
  induction specs with
  | nil =>
    intro last i j rec h
    cases last <;> simp [walkConstAux] at h
  | cons s rest ih =>
    intro last i j rec h
    have hstep : ∀ (head : ConstRec) (last2 : Option VSpec),
        head.iota = i →
        (head :: walkConstAux last2 (i + 1) rest)[j]? = some rec →
        rec.iota = i + j := by
      intro head last2 hhead hh
      cases j with
      | zero =>
        rw [List.getElem?_cons_zero, Option.some.injEq] at hh
        subst hh
        omega
      | succ j2 =>
        rw [List.getElem?_cons_succ] at hh
        have := ih last2 (i + 1) j2 rec hh
        omega
    cases last with
    | none =>
      rw [walkConstAux] at h
      by_cases hs : nonEmptySpec s
      · rw [if_pos hs] at h
        exact hstep _ _ rfl h
      · rw [if_neg hs] at h
        exact hstep _ _ rfl h
    | some l =>
      rw [walkConstAux] at h
      by_cases hs : nonEmptySpec s
      · rw [if_pos hs] at h
        exact hstep _ _ rfl h
      · rw [if_neg hs] at h
        exact hstep _ _ rfl h

lemma walkConstAux_self (specs : List VSpec) :
    ∀ (last : Option VSpec) (i j : Nat) (s : VSpec),
      specs[j]? = some s → nonEmptySpec s = true →
      (walkConstAux last i specs)[j]? =
        some ⟨i + j, s.typ, s.values, false⟩ := by
  induction specs with
  | nil => intro last i j s h _; simp at h
  | cons s0 rest ih =>
    intro last i j s h hs
    cases j with
    | zero =>
      rw [List.getElem?_cons_zero, Option.some.injEq] at h
      subst h
      cases last with
      | none =>
        rw [walkConstAux, if_pos hs, List.getElem?_cons_zero]
        simp
      | some l =>
        rw [walkConstAux, if_pos hs, List.getElem?_cons_zero]
        simp
    | succ j2 =>
      rw [List.getElem?_cons_succ] at h
      have harith : i + 1 + j2 = i + (j2 + 1) := by omega
      cases last with
      | none =>
        by_cases hs0 : nonEmptySpec s0
        · rw [walkConstAux, if_pos hs0, List.getElem?_cons_succ,
            ih (some s0) (i + 1) j2 s h hs, harith]
        · rw [walkConstAux, if_neg hs0, List.getElem?_cons_succ,
            ih (some (VSpec.mk none [])) (i + 1) j2 s h hs, harith]
      | some l =>
        by_cases hs0 : nonEmptySpec s0
        · rw [walkConstAux, if_pos hs0, List.getElem?_cons_succ,
            ih (some s0) (i + 1) j2 s h hs, harith]
        · rw [walkConstAux, if_neg hs0, List.getElem?_cons_succ,
            ih (some l) (i + 1) j2 s h hs, harith]

lemma walkConstAux_inherit_fallback (specs : List VSpec) :
    ∀ (l : VSpec) (i j : Nat) (s : VSpec),
      specs[j]? = some s → nonEmptySpec s = false →
      lastNonEmptyBefore specs j = none →
      (walkConstAux (some l) i specs)[j]? =
        some ⟨i + j, l.typ, l.values, true⟩ := by
  induction specs with
  | nil => intro l i j s h _ _; simp at h
  | cons s0 rest ih =>
    intro l i j s h hs hlast
    cases j with
    | zero =>
      rw [List.getElem?_cons_zero, Option.some.injEq] at h
      subst h
      rw [walkConstAux, if_neg (by simp [hs]), List.getElem?_cons_zero]
      simp
    | succ j2 =>
      rw [List.getElem?_cons_succ] at h
      rw [lastNonEmptyBefore, List.take_succ_cons, lastWithInit_cons] at hlast
      have harith : i + 1 + j2 = i + (j2 + 1) := by omega
      rcases hrec : lastWithInit (List.take j2 rest) with _ | r
      · simp only [hrec] at hlast
        by_cases hs0 : nonEmptySpec s0
        · simp [hs0] at hlast
        · rw [walkConstAux, if_neg hs0, List.getElem?_cons_succ,
            ih l (i + 1) j2 s h hs hrec, harith]
      · simp only [hrec] at hlast
        exact absurd hlast (by simp)

lemma walkConstAux_inherit (specs : List VSpec) :
    ∀ (last : Option VSpec) (i j : Nat) (s src : VSpec),
      specs[j]? = some s → nonEmptySpec s = false →
      lastNonEmptyBefore specs j = some src →
      (walkConstAux last i specs)[j]? =
        some ⟨i + j, src.typ, src.values, true⟩ := by
  induction specs with
  | nil => intro last i j s src h _ _; simp at h
  | cons s0 rest ih =>
    intro last i j s src h hs hlast
    cases j with
    | zero =>
      rw [lastNonEmptyBefore] at hlast
      simp [lastWithInit] at hlast
    | succ j2 =>
      rw [List.getElem?_cons_succ] at h
      rw [lastNonEmptyBefore, List.take_succ_cons, lastWithInit_cons] at hlast
      have harith : i + 1 + j2 = i + (j2 + 1) := by omega
      rcases hrec : lastWithInit (List.take j2 rest) with _ | r
      · simp only [hrec] at hlast
        by_cases hs0 : nonEmptySpec s0
        · rw [if_pos hs0, Option.some.injEq] at hlast
          subst hlast
          cases last with
          | none =>
            rw [walkConstAux, if_pos hs0, List.getElem?_cons_succ,
              walkConstAux_inherit_fallback rest s0 (i + 1) j2 s h hs hrec,
              harith]
          | some l =>
            rw [walkConstAux, if_pos hs0, List.getElem?_cons_succ,
              walkConstAux_inherit_fallback rest s0 (i + 1) j2 s h hs hrec,
              harith]
        · rw [if_neg hs0] at hlast
          exact absurd hlast (by simp)
      · simp only [hrec, Option.some.injEq] at hlast
        subst hlast
        cases last with
        | none =>
          by_cases hs0 : nonEmptySpec s0
          · rw [walkConstAux, if_pos hs0, List.getElem?_cons_succ,
              ih (some s0) (i + 1) j2 s r h hs hrec, harith]
          · rw [walkConstAux, if_neg hs0, List.getElem?_cons_succ,
              ih (some (VSpec.mk none [])) (i + 1) j2 s r h hs hrec, harith]
        | some l =>
          by_cases hs0 : nonEmptySpec s0
          · rw [walkConstAux, if_pos hs0, List.getElem?_cons_succ,
              ih (some s0) (i + 1) j2 s r h hs hrec, harith]
          · rw [walkConstAux, if_neg hs0, List.getElem?_cons_succ,
              ih (some l) (i + 1) j2 s r h hs hrec, harith]


/-- C8: the const arm of the declaration walker preserves the number of
specs, stamps each record with iota equal to the spec's zero-based index
in the block, emits a spec carrying its own type or values verbatim and
not inherited (it becomes the new inheritance source), and gives a spec
with neither type nor values the type and init expressions of the
nearest preceding spec that had them, marked inherited. -/
theorem c8_walk_const_inheritance (specs : List VSpec) (j : Nat) (s : VSpec)
    (hs : specs[j]? = some s) :
    (walkConstBlock specs).length = specs.length ∧
    (∀ rec : ConstRec, (walkConstBlock specs)[j]? = some rec →
      rec.iota = j) ∧
    (nonEmptySpec s = true →
      (walkConstBlock specs)[j]? = some ⟨j, s.typ, s.values, false⟩) ∧
    (nonEmptySpec s = false → ∀ src : VSpec,
      lastNonEmptyBefore specs j = some src →
      (walkConstBlock specs)[j]? = some ⟨j, src.typ, src.values, true⟩) := by
  refine ⟨walkConstAux_length specs none 0, ?_, ?_, ?_⟩
  · intro rec h
    have := walkConstAux_iota specs none 0 j rec h
    omega
  · intro hne
    have := walkConstAux_self specs none 0 j s hs hne
    simpa [walkConstBlock] using this
  · intro hne src hsrc
    have := walkConstAux_inherit specs none 0 j s src hs hne hsrc
    simpa [walkConstBlock] using this

/-- C8 witness: the block `const (a int = 1; b; c)` (type expression 7,
init expression 11) yields three records with iota 0, 1, 2; the first
keeps its own type and init uninherited, the later two inherit them. -/
theorem c8_walk_const_inheritance_witness :
    (walkConstBlock [⟨some 7, [11]⟩, ⟨none, []⟩, ⟨none, []⟩])[2]? =
      some ⟨2, some 7, [11], true⟩ ∧
    (walkConstBlock [⟨some 7, [11]⟩, ⟨none, []⟩, ⟨none, []⟩])[0]? =
      some ⟨0, some 7, [11], false⟩ := by
  have h := c8_walk_const_inheritance
    [⟨some 7, [11]⟩, ⟨none, []⟩, ⟨none, []⟩] 2 ⟨none, []⟩ (by decide)
  have h0 := c8_walk_const_inheritance
    [⟨some 7, [11]⟩, ⟨none, []⟩, ⟨none, []⟩] 0 ⟨some 7, [11]⟩ (by decide)
  exact ⟨h.2.2.2 (by decide) ⟨some 7, [11]⟩ (by decide), h0.2.2.1 (by decide)⟩

/-! ## Type parameter subscripts (iimport.go, parseSubscript / obj tag 'P')

Names are lists of characters.  The Go loop indexes bytes where this
model indexes characters; that affects only the returned name prefix,
never the subscript value the claim is about. -/

/-- The digit test in parseSubscript: '₀' <= r && r < '₀'+10, with '₀'
being U+2080 = 8320. -/
def isSubscriptDigit (c : Char) : Bool :=
  8320 ≤ c.toNat && c.toNat < 8330

/-- The loop of parseSubscript: every subscript digit extends the decimal
accumulator; `start.getD i` is `if startsub == -1 { startsub = i }`. -/
def parseSubscriptAux : List Char → Nat → Option Nat → Nat → Nat × Option Nat
  | [], sub, start, _ => (sub, start)
  | c :: rest, sub, start, i =>
    if isSubscriptDigit c then
      parseSubscriptAux rest (sub * 10 + (c.toNat - 8320))
        (some (start.getD i)) (i + 1)
    else parseSubscriptAux rest sub start (i + 1)

/-- parseSubscript from iimport.go: the name truncated at the first
subscript digit, and the decimal value of the subscript digits. -/
def parseSubscript (name : List Char) : List Char × Nat :=
  let r := parseSubscriptAux name 0 none 0
  match r.2 with
  | some s => (name.take s, r.1)
  | none => (name, r.1)

/-- The tag-'P' gate in importReader.obj: a zero parsed subscript is the
fatal "missing subscript" error, raised before the type parameter can be
registered; otherwise the id is the subscript. -/
def importTypeParamId (name : List Char) : Except String Nat :=
  let sub := (parseSubscript name).2
  if sub = 0 then Except.error "missing subscript" else Except.ok sub

lemma parseSubscriptAux_zero (l : List Char) :
    ∀ (start : Option Nat) (i : Nat),
      (∀ c ∈ l, isSubscriptDigit c = true → c.toNat = 8320) →
      (parseSubscriptAux l 0 start i).1 = 0 := by
  induction l with
  | nil => intro start i _; rfl
  | cons c rest ih =>
    intro start i hall
    by_cases hc : isSubscriptDigit c
    · have h8320 : c.toNat = 8320 := hall c (by simp) hc
      rw [parseSubscriptAux, if_pos hc]
      have hz : 0 * 10 + (c.toNat - 8320) = 0 := by omega
      rw [hz]
      exact ih _ _ (fun d hd hdig => hall d (by simp [hd]) hdig)
    · rw [parseSubscriptAux, if_neg hc]
      exact ih _ _ (fun d hd hdig => hall d (by simp [hd]) hdig)

lemma parseSubscript_snd (name : List Char) :
    (parseSubscript name).2 = (parseSubscriptAux name 0 none 0).1 := by
  unfold parseSubscript
  cases h : (parseSubscriptAux name 0 none 0).2 <;> simp [h]

/-- C10: parseSubscript returns subscript value 0 both when the name has
no subscript digits and when its subscript digits all encode 0 (each is
'₀'); in both cases the 'P' reader raises the fatal "missing subscript"
error, so a type parameter whose encoded unique id is 0 is never
imported. -/
theorem c10_missing_subscript (name : List Char) :
    ((∀ c ∈ name, isSubscriptDigit c = false) →
      (parseSubscript name).2 = 0 ∧
      importTypeParamId name = Except.error "missing subscript") ∧
    ((∀ c ∈ name, isSubscriptDigit c = true → c.toNat = 8320) →
      (parseSubscript name).2 = 0 ∧
      importTypeParamId name = Except.error "missing subscript") ∧
    (∀ k : Nat, importTypeParamId name = Except.ok k → k ≠ 0) := by
  have hzero : (∀ c ∈ name, isSubscriptDigit c = true → c.toNat = 8320) →
      (parseSubscript name).2 = 0 := by
    intro hall
    rw [parseSubscript_snd]
    exact parseSubscriptAux_zero name none 0 hall
  refine ⟨?_, ?_, ?_⟩
  · intro hnone
    have hall : ∀ c ∈ name, isSubscriptDigit c = true → c.toNat = 8320 := by
      intro c hc hdig
      rw [hnone c hc] at hdig
      exact absurd hdig (by simp)
    have h0 := hzero hall
    exact ⟨h0, by simp [importTypeParamId, h0]⟩
  · intro hall
    have h0 := hzero hall
    exact ⟨h0, by simp [importTypeParamId, h0]⟩
  · intro k hk hk0
    subst hk0
    by_cases h0 : (parseSubscript name).2 = 0
    · simp [importTypeParamId, h0] at hk
    · simp [importTypeParamId, h0] at hk

/-- C10 witness: the name T₀ (subscript digits encoding 0) makes the 'P'
reader fail with the "missing subscript" error. -/
theorem c10_missing_subscript_witness :
    importTypeParamId ['T', '₀'] = Except.error "missing subscript" :=
  ((c10_missing_subscript ['T', '₀']).2.1 (by decide)).2

end Wend
